import Mathlib

/-!
Verification of the pyberryplc motion-control core against its specification.

The definitions below are a shallow embedding, in Lean 4, of the Python
sources of the repository:

* `src/pyberryplc/motion_profiles/motion_profile.py`
  (`MotionProfile.__init__` and the four private resolution methods,
  `TrapezoidalProfile`, `SCurvedProfile`),
* `src/pyberryplc/motion_profiles/delay_generator.py`
  (`StepDelayGenerator._generate_delays`),
* `src/pyberryplc/motion_profiles/dynamic_generator.py`
  (`DynamicDelayGenerator`),
* `src/pyberryplc/stepper/stepper_gpio/base.py` (`StepperMotor`),
* `src/rpi_plc/stepper/stepper_uart/tmc2208_uart.py` (`TMC2208UART`).

Python floats are modelled as exact rationals (`ℚ`); the numerical ODE
integration used by `MotionProfile._calc_accel_distance` is modelled by the
exact closed-form value of the integral of the profile's acceleration
function (the spec itself requires the numerical result to agree with the
closed form).  Raised exceptions are modelled with `Except`.  `pint`
quantities are modelled by their magnitudes in one coherent unit system;
the fixed positive unit-conversion factors do not affect any property
proved here.
-/

namespace PyBerryPLC

/-- The two concrete `MotionProfile` subclasses: `TrapezoidalProfile` and
`SCurvedProfile` (`motion_profile.py`). -/
inductive ProfileKind where
  | trapezoidal
  | sCurved
deriving DecidableEq, Repr

/-- Errors raised during `MotionProfile.__init__`.  `ConfigError`,
`DistanceError` and `TimingError` are declared in `motion_profile.py`;
`typeError` models Python's built-in `TypeError`, raised when an arithmetic
operation hits an attribute that is still `None`. -/
inductive PErr where
  | configError
  | distanceError
  | timingError
  | typeError
deriving DecidableEq, Repr

/-- The resolved attributes of a `MotionProfile` once `__init__` has
completed without raising (`motion_profile.py`, class docstring). -/
structure Profile where
  v_m : ℚ
  a_m : ℚ
  ds_tot : ℚ
  dt_tot : ℚ
  dt_acc : ℚ
  ds_acc : ℚ
  dt_dec : ℚ
  ds_dec : ℚ
  dt_cov : ℚ
  ds_cov : ℚ
deriving DecidableEq, Repr

/-- `_calc_accel_duration`: `v_m / a_m` for `TrapezoidalProfile`,
`2 * v_m / a_m` for `SCurvedProfile`. -/
def calc_accel_duration : ProfileKind → ℚ → ℚ → ℚ
  | .trapezoidal, vm, am => vm / am
  | .sCurved, vm, am => 2 * vm / am

/-- `_calc_accel`: `v_m / dt_acc` for `TrapezoidalProfile`,
`2 * v_m / dt_acc` for `SCurvedProfile`. -/
def calc_accel : ProfileKind → ℚ → ℚ → ℚ
  | .trapezoidal, vm, dtacc => vm / dtacc
  | .sCurved, vm, dtacc => 2 * vm / dtacc

/-- `_calc_accel_distance`: the source numerically integrates the
acceleration function returned by `_create_accel_fun` from `0` to `dt_acc`
(via `kinematics.position` / `solve_ivp`).  This is the exact value of that
integral: for the trapezoidal profile the acceleration is the constant
`a_m`, giving `a_m·dt_acc²/2`; for the S-curve profile the acceleration is
two back-to-back linear ramps with slope `c1 = a_m²/v_m` over
`[0, dt_acc/2]` and `[dt_acc/2, dt_acc]`, whose double integral is
`c1·(dt_acc/2)³`. -/
def calc_accel_distance : ProfileKind → ℚ → ℚ → ℚ → ℚ
  | .trapezoidal, _vm, am, dtacc => am * dtacc ^ 2 / 2
  | .sCurved, vm, am, dtacc => am ^ 2 / vm * (dtacc / 2) ^ 3

/-- `MotionProfile._calc_total_travel_time` (use case 1, given `v_m`, `a_m`
and `ds_tot`; `self._dt_acc` has already been resolved by `__init__`).
`_calc_decel_duration` returns `self._dt_acc` in both subclasses, and
`_calc_cst_veloc_duration` solves `ds_cov = v_m · t` for `t` (`__init__`
only dispatches here when `v_m` is truthy, hence nonzero). -/
def calc_total_travel_time (k : ProfileKind) (vm am dtacc dstot : ℚ) :
    Except PErr Profile :=
  let dsacc := calc_accel_distance k vm am dtacc
  let dtdec := dtacc
  let dsdec := dsacc
  let dscov := dstot - dsacc - dsdec
  if dscov < 0 then
    .error .distanceError
  else
    let dtcov := dscov / vm
    let dttot := dtacc + dtcov + dtdec
    .ok ⟨vm, am, dstot, dttot, dtacc, dsacc, dtdec, dsdec, dtcov, dscov⟩

/-- `MotionProfile._calc_total_travel_distance` (use case 2, given `v_m`,
`a_m` and `dt_tot`).  `_calc_cst_veloc_distance` solves `s = v_m · dt_cov`
for `s`. -/
def calc_total_travel_distance (k : ProfileKind) (vm am dtacc dttot : ℚ) :
    Except PErr Profile :=
  let dsacc := calc_accel_distance k vm am dtacc
  let dtdec := dtacc
  let dsdec := dsacc
  let dtcov := dttot - dtacc - dtdec
  if dtcov < 0 then
    .error .timingError
  else
    let dscov := vm * dtcov
    let dstot := dsacc + dscov + dsdec
    .ok ⟨vm, am, dstot, dttot, dtacc, dsacc, dtdec, dsdec, dtcov, dscov⟩

/-- `MotionProfile._calc_required_acceleration` (use case 3, given
`dt_acc`, `dt_tot` and `ds_tot`).  The source raises no profile error on
this path. -/
def calc_required_acceleration (k : ProfileKind) (dtacc dttot dstot : ℚ) :
    Profile :=
  let dtdec := dtacc
  let dtcov := dttot - dtacc - dtdec
  let vm := dstot / (dtcov + dtacc)
  let dscov := vm * dtcov
  let dsacc := (dstot - dscov) / 2
  let dsdec := dsacc
  let am := calc_accel k vm dtacc
  ⟨vm, am, dstot, dttot, dtacc, dsacc, dtdec, dsdec, dtcov, dscov⟩

/-- `MotionProfile._calc_minimum_acceleration` (use case 4, given `ds_tot`
and `dt_tot`).  The method reads `self._dt_acc` (passed here as `dtacc?`):
when it is still `None` — which is what `__init__` leaves it at on the
pure case-4 path, since the assignment `self._dt_acc =
self._calc_accel_duration()` inside this method is commented out and the
`__init__` prelude only assigns `_dt_acc` when `dt_acc` or `a_m` is given —
the method crashes with a `TypeError` (`0.0 + None` inside
`_calc_accel_distance` for the trapezoidal variant, `None / 2` inside
`_create_accel_fun` for the S-curve variant).  Otherwise it sets
`v_m = 2·ds_tot/dt_tot`, `a_m = 2·v_m/dt_tot`, `dt_dec = dt_acc`,
`ds_dec = ds_acc` and a zero cruise phase. -/
def calc_minimum_acceleration (k : ProfileKind) (dstot dttot : ℚ)
    (dtacc? : Option ℚ) : Except PErr Profile :=
  let vm := 2 * dstot / dttot
  let am := 2 * vm / dttot
  match dtacc? with
  | none => .error .typeError
  | some dtacc =>
      let dsacc := calc_accel_distance k vm am dtacc
      .ok ⟨vm, am, dstot, dttot, dtacc, dsacc, dtacc, dsacc, 0, 0⟩

/-- Python truthiness of an optional float, as used by the
`all([...])` guards in `MotionProfile.__init__`: `None` and `0.0` are
falsy, every other float is truthy. -/
def truthy : Option ℚ → Bool
  | none => false
  | some x => decide (x ≠ 0)

/-- `MotionProfile.__init__` for a subclass of kind `k`, over the five
optional keyword arguments (magnitudes of the `Quantity` arguments;
`translation` only selects the unit system and is omitted).  Mirrors the
source line by line: first `a_m` is taken as given or derived from
`v_m`/`dt_acc` via `_calc_accel`; then `dt_acc` is taken as given or
derived via `_calc_accel_duration` when `a_m` is given (the source calls
`_calc_accel_duration` even when `v_m` is `None`, which raises a
`TypeError`); finally the four use cases are dispatched on the Python
truthiness of the resolved attributes, and any other combination raises
`ConfigError`. -/
def motion_profile_init (k : ProfileKind)
    (vm? am? dttot? dstot? dtacc? : Option ℚ) : Except PErr Profile :=
  let amr : Option ℚ :=
    match am?, vm?, dtacc? with
    | some a, _, _ => some a
    | none, some v, some dta => some (calc_accel k v dta)
    | _, _, _ => none
  let dtar : Except PErr (Option ℚ) :=
    match dtacc?, am? with
    | some d, _ => .ok (some d)
    | none, some a =>
        match vm? with
        | some v => .ok (some (calc_accel_duration k v a))
        | none => .error .typeError
    | none, none => .ok none
  match dtar with
  | .error e => .error e
  | .ok dta =>
      if truthy vm? ∧ truthy amr ∧ truthy dstot? then
        calc_total_travel_time k (vm?.getD 0) (amr.getD 0) (dta.getD 0)
          (dstot?.getD 0)
      else if truthy vm? ∧ truthy amr ∧ truthy dttot? then
        calc_total_travel_distance k (vm?.getD 0) (amr.getD 0) (dta.getD 0)
          (dttot?.getD 0)
      else if truthy dta ∧ truthy dttot? ∧ truthy dstot? then
        .ok (calc_required_acceleration k (dta.getD 0) (dttot?.getD 0)
          (dstot?.getD 0))
      else if truthy dttot? ∧ truthy dstot? then
        calc_minimum_acceleration k (dstot?.getD 0) (dttot?.getD 0) dta
      else
        .error .configError

/-! ### Step Delay Sequencer (`delay_generator.py`, `StepperMotor._get_delays`) -/

/-- `np.arange(0.0, stop, step)` for a positive step: the values
`0, step, 2·step, …` strictly below `stop`; there are `⌈stop/step⌉` of
them (`0` of them when `stop ≤ 0`). -/
def arange (stop step : ℚ) : List ℚ :=
  (List.range (Int.toNat ⌈stop / step⌉)).map (fun k : ℕ => (k : ℚ) * step)

/-- `np.diff`: successive differences of a list. -/
def diffList (xs : List ℚ) : List ℚ :=
  List.zipWith (fun a b => b - a) xs xs.tail

/-- `StepDelayGenerator._generate_delays` (and, identically, the
profile branch of `StepperMotor._get_delays`): sample angles
`np.arange(0, ds_tot + step_angle, step_angle)`, map them through the
profile's `time_from_position_fn()` (here the parameter `T`), take
`np.diff` and subtract the fixed step-pulse width. -/
def generate_delays (T : ℚ → ℚ) (dstot stepAngle stepWidth : ℚ) : List ℚ :=
  let angles := arange (dstot + stepAngle) stepAngle
  let times := angles.map T
  (diffList times).map (fun d => d - stepWidth)

/-! ### Dynamic Delay Generator (`dynamic_generator.py`) -/

/-- The four values of `DynamicDelayGenerator.state`. -/
inductive GenState where
  | accel
  | cruise
  | decel
  | done
deriving DecidableEq, Repr

/-- The instance attributes of `DynamicDelayGenerator`.  `rampUp` is the
closure stored from `profile.ramp_up_fn()` and `rampDownBuilder` the bound
method `profile.ramp_down_fn` (taking the trigger time and the velocity at
that time, returning the ramp-down velocity function); `MotionProfile` in
`src` does not define these two methods, so they are kept as parameters of
the state, exactly as the Python object stores the closures it was given.
`velocityDownFn` is `None` until `trigger_decel` assigns it. -/
structure DynGen where
  rampUp : ℚ → ℚ
  rampDownBuilder : ℚ → ℚ → ℚ → ℚ
  stepAngle : ℚ
  accelDuration : ℚ
  t : ℚ
  s : ℚ
  stepIndex : ℕ
  state : GenState
  cruiseVelocity : Option ℚ
  decelTriggered : Bool
  decelStartVelocity : Option ℚ
  velocityDownFn : Option (ℚ → ℚ)

/-- `DynamicDelayGenerator.trigger_decel`: unconditionally sets
`state = decel`, captures `velocity_up_fn(t)` as the deceleration start
velocity and builds the ramp-down function from it. -/
def trigger_decel (g : DynGen) : DynGen :=
  let v0 := g.rampUp g.t
  { g with
      state := .decel
      decelTriggered := true
      decelStartVelocity := some v0
      velocityDownFn := some (g.rampDownBuilder g.t v0) }

/-- Advance the generator by one emitted delay: `delay =
abs(step_angle / v)`, then `t += delay`, `s += step_angle`,
`step_index += 1` (`next_delay`, tail of the method). -/
def emit_delay (v : ℚ) (g : DynGen) : Option ℚ × DynGen :=
  let delay := |g.stepAngle / v|
  (some delay,
    { g with t := g.t + delay, s := g.s + g.stepAngle,
             stepIndex := g.stepIndex + 1 })

/-- `DynamicDelayGenerator.next_delay`.  A `none` first component models a
raised `StopIteration`; the second component is the generator state after
the call (the source mutates `self.state` before raising).  In the
`cruise` branch the source reads `self.cruise_velocity`, which is always a
float there because the only transition into `cruise` assigns it; the
`getD 0` default is dead.  Likewise `velocity_down_fn` is always assigned
before the `decel` branch can run. -/
def next_delay (g : DynGen) : Option ℚ × DynGen :=
  match g.state with
  | .done => (none, g)
  | .accel =>
      let v := g.rampUp g.t
      let g' :=
        if g.accelDuration ≤ g.t then
          { g with state := .cruise, cruiseVelocity := some v }
        else g
      emit_delay v g'
  | .cruise =>
      let v := g.cruiseVelocity.getD 0
      let g' := if g.decelTriggered then { g with decelTriggered := false } else g
      emit_delay v g'
  | .decel =>
      let v := (g.velocityDownFn.getD (fun _ => 0)) g.t
      if v ≤ 0 then (none, { g with state := .done })
      else emit_delay v g

/-- Modelled from the spec: `MotionProfile.ramp_up_fn` is called by
`DynamicDelayGenerator.__init__` but is not defined anywhere under `src`.
Per spec §4.4 the ramp-up function gives the velocity of the acceleration
phase as a function of elapsed virtual time; for the trapezoidal shape
(velocity ramps linearly to the top velocity) that is `min (a_m·t) v_m`. -/
def spec_ramp_up_fn (am vm : ℚ) : ℚ → ℚ :=
  fun t => min (am * t) vm

/-- Modelled from the spec: `MotionProfile.ramp_down_fn` is called by
`DynamicDelayGenerator.trigger_decel` but is not defined anywhere under
`src`.  Per spec §4.4 it builds a ramp-down function from the captured
start velocity to zero; for the trapezoidal shape that is the linear ramp
`v0 - a_m·(t - t0)`. -/
def spec_ramp_down_fn (am : ℚ) : ℚ → ℚ → ℚ → ℚ :=
  fun t0 v0 t => v0 - am * (t - t0)

/-! ### Step Scheduler (`stepper_gpio/base.py`, class `StepperMotor`) -/

/-- The non-blocking motion-control state of a `StepperMotor` together
with the observable effects relevant to the claims: `pulses` counts calls
of `_pulse_step_pin` (and the pulses emitted by the blocking `rotate`
loop), `warnings` counts busy-rejection warnings logged. -/
structure StepperState where
  busy : Bool
  nextStepTime : ℚ
  delays : List ℚ
  dirForward : Bool
  pulses : ℕ
  warnings : ℕ
deriving DecidableEq, Repr

/-- The data of a resolved `MotionProfile` that
`StepperMotor._get_delays` consumes: the clamped
`time_from_position_fn()` and the total travel distance in degrees. -/
structure ProfileData where
  T : ℚ → ℚ
  dstot : ℚ

/-- `StepperMotor._get_delays`.  `stepsPerDegree = full_steps_per_rev ·
microstep_factor / 360`.  With a profile: step angle `1/stepsPerDegree`,
then exactly the `generate_delays` computation.  Without: `total_steps =
int(degrees · stepsPerDegree)` constant delays of `1/step_rate/2` (Python
`int()` truncates toward zero; for the list contents only the
non-negative part matters, so `Int.toNat ⌊·⌋` yields the same list). -/
def get_delays (fullStepsPerRev microFactor : ℕ) (stepWidth : ℚ)
    (degrees angularSpeed : ℚ) (profile : Option ProfileData) : List ℚ :=
  let stepsPerDegree : ℚ := (fullStepsPerRev : ℚ) * (microFactor : ℚ) / 360
  match profile with
  | some p =>
      let stepAngle := 1 / stepsPerDegree
      generate_delays p.T p.dstot stepAngle stepWidth
  | none =>
      let totalSteps := Int.toNat ⌊degrees * stepsPerDegree⌋
      let stepRate := angularSpeed * stepsPerDegree
      let delay := 1 / stepRate / 2
      List.replicate totalSteps delay

/-- `StepperMotor.start_rotation`: if busy, log a warning and return with
no other effect; otherwise set the direction line, compute the delay
deque, schedule the first pulse for now (`_next_step_time = time.time()`)
and set the busy flag. -/
def start_rotation (fullStepsPerRev microFactor : ℕ) (stepWidth : ℚ)
    (now degrees angularSpeed : ℚ) (profile : Option ProfileData)
    (dirForward : Bool) (s : StepperState) : StepperState :=
  if s.busy then
    { s with warnings := s.warnings + 1 }
  else
    { s with
        dirForward := dirForward
        delays := get_delays fullStepsPerRev microFactor stepWidth degrees
          angularSpeed profile
        nextStepTime := now
        busy := true }

/-- `StepperMotor.do_single_step`: no-op unless busy; when the current
time has reached the scheduled time and the deque is non-empty, pulse the
step pin, pop the head delay `d`, reschedule at `now + 2·d`, and clear the
busy flag when the deque is exhausted. -/
def do_single_step (now : ℚ) (s : StepperState) : StepperState :=
  if s.busy = false then s
  else if s.nextStepTime ≤ now ∧ s.delays ≠ [] then
    match s.delays with
    | [] => { s with pulses := s.pulses + 1 }
    | d :: rest =>
        let s' := { s with
            pulses := s.pulses + 1
            nextStepTime := now + 2 * d
            delays := rest }
        if rest = [] then { s' with busy := false } else s'
  else s

/-- `StepperMotor.rotate` (blocking): if busy, log a warning and return
with no other effect; otherwise set the direction line, compute the delay
deque, and emit one pulse per delay synchronously.  The source never sets
`_busy` on this path and leaves `_delays` holding the computed deque. -/
def rotate (fullStepsPerRev microFactor : ℕ) (stepWidth : ℚ)
    (degrees angularSpeed : ℚ) (profile : Option ProfileData)
    (dirForward : Bool) (s : StepperState) : StepperState :=
  if s.busy then
    { s with warnings := s.warnings + 1 }
  else
    let ds := get_delays fullStepsPerRev microFactor stepWidth degrees
      angularSpeed profile
    { s with
        dirForward := dirForward
        delays := ds
        pulses := s.pulses + ds.length }

/-- A concrete `DynamicDelayGenerator` that has run to completion:
`state = done` after a full trapezoidal motion with `a_m = v_m = 1` and
unit step angle (virtual time and distance at 5). -/
def dyn_gen_done : DynGen where
  rampUp := spec_ramp_up_fn 1 1
  rampDownBuilder := spec_ramp_down_fn 1
  stepAngle := 1
  accelDuration := 1
  t := 5
  s := 5
  stepIndex := 5
  state := .done
  cruiseVelocity := some 1
  decelTriggered := false
  decelStartVelocity := some 1
  velocityDownFn := some (spec_ramp_down_fn 1 1 1)

/-- A freshly constructed, idle `StepperMotor` (non-blocking state after
`__init__`: not busy, empty deque). -/
def idle_stepper : StepperState := ⟨false, 0, [], true, 0, 0⟩

/-- A `StepperMotor` in the middle of a motion: busy, one pending delay,
next pulse scheduled at `t = 3`. -/
def busy_stepper : StepperState := ⟨true, 3, [1], true, 0, 0⟩

/-- The state produced by `start_rotation(degrees=0.4, angular_speed=90)`
on an idle motor with 200 full steps per revolution in full-step mode:
`total_steps = int(0.4 · 200/360) = int(0.2…) = 0`, so the computed delay
list is empty. -/
def stuck_stepper : StepperState :=
  start_rotation 200 1 (1/100000) 0 (2/5) 90 none true idle_stepper

/-! ### Driver Register Protocol (`rpi_plc/stepper/stepper_uart/tmc2208_uart.py`) -/

/-- The `IOError` variants raised by `TMC2208UART.read_register` /
`write_register`. -/
inductive UARTError where
  | incompleteResponse
  | invalidSync (b : ℕ)
  | invalidMaster (b : ℕ)
  | unexpectedRegister (b : ℕ)
  | crcFailed
deriving DecidableEq, Repr

/-- One inner iteration of `TMC2208UART._calculate_crc`: the Python
condition `if (crc >> 7) ^ (byte & 0x01):` is true when that XOR is
nonzero. -/
def crc_bit_step (p : ℕ × ℕ) : ℕ × ℕ :=
  let crc := p.1
  let byte := p.2
  let crc' :=
    if (crc >>> 7) ^^^ (byte &&& 1) ≠ 0 then
      ((crc <<< 1) ^^^ 0x07) &&& 0xFF
    else
      (crc <<< 1) &&& 0xFF
  (crc', byte >>> 1)

/-- The 8 inner iterations of `_calculate_crc` for one data byte. -/
def crc_update (crc byte : ℕ) : ℕ :=
  (crc_bit_step (crc_bit_step (crc_bit_step (crc_bit_step
    (crc_bit_step (crc_bit_step (crc_bit_step (crc_bit_step
      (crc, byte))))))))).1

/-- `TMC2208UART._calculate_crc`: fold `crc_update` over the data bytes
starting from `0`. -/
def calculate_crc (data : List ℕ) : ℕ :=
  data.foldl crc_update 0

/-- The response-parsing part of `TMC2208UART.read_register`, given the
requested register address and the bytes returned by
`self.serial.read(12)` (at most 12 bytes).  Mirrors the source: if fewer
than 12 bytes arrived, raise; otherwise skip the 4-byte request echo and
validate the sync byte, the master address, the register echo against
`register & 0x7F`, and the checksum of the first 7 reply bytes; on
success the value is the 4 data bytes assembled big-endian,
`(r3 << 24) | (r4 << 16) | (r5 << 8) | r6`.  Indexing is modelled with
`getD`; the defaults are never reached because the length check
guarantees 8 reply bytes. -/
def read_register (register : ℕ) (response : List ℕ) : Except UARTError ℕ :=
  if response.length < 12 then .error .incompleteResponse
  else
    let r := response.drop 4
    let b0 := r.getD 0 0
    let b1 := r.getD 1 0
    let b2 := r.getD 2 0
    let b7 := r.getD 7 0
    if b0 ≠ 0x05 then .error (.invalidSync b0)
    else if b1 ≠ 0xFF then .error (.invalidMaster b1)
    else if b2 ≠ Nat.land register 0x7F then .error (.unexpectedRegister b2)
    else if calculate_crc (r.take 7) ≠ b7 then .error .crcFailed
    else
      .ok (Nat.lor (Nat.lor (Nat.lor ((r.getD 3 0) <<< 24)
        ((r.getD 4 0) <<< 16)) ((r.getD 5 0) <<< 8)) (r.getD 6 0))

/-- The 8-byte write datagram sent by `TMC2208UART.write_register`:
sync, slave address, register with the write bit set, the 4 value bytes
big-endian, and the CRC over the preceding 7 bytes. -/
def write_datagram (slave register value : ℕ) : List ℕ :=
  let dg := [0x05, slave, Nat.lor register 0x80,
             (value >>> 24) &&& 0xFF, (value >>> 16) &&& 0xFF,
             (value >>> 8) &&& 0xFF, value &&& 0xFF]
  dg ++ [calculate_crc dg]

/-- `TMC2208UART.update_register_bits`: read the register (modelled by
the oracle `readReg`, whose `Except` result stands for
`self.read_register(register)` returning or raising); on failure the
exception propagates and nothing is written; on success compute
`(current & ~mask) | (value & mask)` and write it back with a single
`write_register` call.  The second component is the list of datagrams
written to the bus.  On non-negative Python ints `current & ~mask` equals
the bitwise difference `Nat.ldiff current mask`. -/
def update_register_bits (readReg : ℕ → Except UARTError ℕ)
    (slave register mask value : ℕ) :
    Except UARTError Unit × List (List ℕ) :=
  match readReg register with
  | .error e => (.error e, [])
  | .ok current =>
      let newValue := Nat.lor (Nat.ldiff current mask) (Nat.land value mask)
      (.ok (), [write_datagram slave register newValue])

/-! ## Theorems -/

/-- C1: a profile resolved from `v_m`, `a_m` and `ds_tot` (use case 1)
fails with `DistanceError` exactly when the implied constant-velocity
distance `ds_cov = ds_tot - ds_acc - ds_dec` is negative — in particular
a trapezoidal profile with `v_m = 360`, `a_m = 720`, `ds_tot = 90` in
degree units raises `DistanceError` — while a profile resolved from
`v_m`, `a_m` and `dt_tot` (use case 2) fails with `TimingError` exactly
when the implied cruise duration `dt_cov = dt_tot - dt_acc - dt_dec` is
negative. -/
theorem case1_distance_error_case2_timing_error :
    (∀ (k : ProfileKind) (vm am dtacc dstot : ℚ),
      (calc_total_travel_time k vm am dtacc dstot = .error .distanceError ↔
        dstot - calc_accel_distance k vm am dtacc
          - calc_accel_distance k vm am dtacc < 0) ∧
      ((∃ p, calc_total_travel_time k vm am dtacc dstot = .ok p) ↔
        ¬ (dstot - calc_accel_distance k vm am dtacc
          - calc_accel_distance k vm am dtacc < 0))) ∧
    (∀ (k : ProfileKind) (vm am dtacc dttot : ℚ),
      (calc_total_travel_distance k vm am dtacc dttot = .error .timingError ↔
        dttot - dtacc - dtacc < 0) ∧
      ((∃ p, calc_total_travel_distance k vm am dtacc dttot = .ok p) ↔
        ¬ (dttot - dtacc - dtacc < 0))) ∧
    motion_profile_init .trapezoidal (some 360) (some 720) none (some 90) none
      = .error .distanceError := by
  refine ⟨?_, ?_, ?_⟩
  · intro k vm am dtacc dstot
    by_cases h : dstot - calc_accel_distance k vm am dtacc
        - calc_accel_distance k vm am dtacc < 0 <;>
      simp [calc_total_travel_time, h]
  · intro k vm am dtacc dttot
    by_cases h : dttot - dtacc - dtacc < 0 <;>
      simp [calc_total_travel_distance, h]
  · have ht1 : truthy (some (360 : ℚ)) = true := by norm_num [truthy]
    have ht2 : truthy (some (720 : ℚ)) = true := by norm_num [truthy]
    have ht3 : truthy (some (90 : ℚ)) = true := by norm_num [truthy]
    have hc : (90 : ℚ)
        - calc_accel_distance .trapezoidal 360 720
            (calc_accel_duration .trapezoidal 360 720)
        - calc_accel_distance .trapezoidal 360 720
            (calc_accel_duration .trapezoidal 360 720) < 0 := by
      norm_num [calc_accel_distance, calc_accel_duration]
    unfold motion_profile_init
    simp only [ht1, ht2, ht3, Option.getD_some, and_self, if_true]
    unfold calc_total_travel_time
    rw [if_pos hc]

/-- Unfolding lemma: the difference list of two stacked heads. -/
lemma diffList_cons_cons (a b : ℚ) (l : List ℚ) :
    diffList (a :: b :: l) = (b - a) :: diffList (b :: l) := rfl

/-- The difference list of `f` sampled on `0, 1, …, m` is the list of the
`m` successive differences of `f`. -/
lemma diffList_map_range :
    ∀ (m : ℕ) (f : ℕ → ℚ),
      diffList ((List.range (m + 1)).map f)
        = (List.range m).map (fun k => f (k + 1) - f k) := by
  intro m
  induction m with
  | zero => intro f; rfl
  | succ n ih =>
      intro f
      have e1 : (List.range (n + 2)).map f
          = f 0 :: (List.range (n + 1)).map (fun k => f (k + 1)) := by
        rw [List.range_succ_eq_map (n + 1), List.map_cons, List.map_map]
        rfl
      have e2 : (List.range (n + 1)).map (fun k => f (k + 1))
          = f 1 :: (List.range n).map (fun k => f (k + 2)) := by
        rw [List.range_succ_eq_map n, List.map_cons, List.map_map]
        rfl
      rw [e1, e2, diffList_cons_cons, ← e2, ih (fun k => f (k + 1))]
      rw [List.range_succ_eq_map n, List.map_cons, List.map_map]
      rfl

/-- Telescoping sum of successive differences, each shifted down by the
constant `w`. -/
lemma sum_range_map_sub_const (F : ℕ → ℚ) (w : ℚ) :
    ∀ n : ℕ, ((List.range n).map (fun k => F (k + 1) - F k - w)).sum
      = F n - F 0 - n * w := by
  intro n
  induction n with
  | zero => simp
  | succ m ih =>
      rw [List.range_succ, List.map_append, List.sum_append, ih]
      push_cast
      simp only [List.map_cons, List.map_nil, List.sum_cons, List.sum_nil]
      ring

/-- Closed form of `_generate_delays`: for a positive step angle and a
non-negative total distance, the generated list is exactly the
`⌈ds_tot/step_angle⌉` successive differences of the time law sampled at
the step boundaries, each minus the pulse width. -/
lemma generate_delays_eq (T : ℚ → ℚ) (dstot h w : ℚ)
    (hh : 0 < h) (hds : 0 ≤ dstot) :
    generate_delays T dstot h w
      = (List.range (Int.toNat ⌈dstot / h⌉)).map
          (fun k => T (((k + 1 : ℕ) : ℚ) * h) - T (((k : ℕ) : ℚ) * h) - w) := by
  have hne : h ≠ 0 := ne_of_gt hh
  have hdiv : (dstot + h) / h = dstot / h + 1 := by field_simp
  have hnn : 0 ≤ ⌈dstot / h⌉ :=
    Int.ceil_nonneg (div_nonneg hds (le_of_lt hh))
  have hcount : Int.toNat ⌈(dstot + h) / h⌉ = Int.toNat ⌈dstot / h⌉ + 1 := by
    rw [hdiv, Int.ceil_add_one]
    omega
  unfold generate_delays arange
  rw [hcount]
  simp only [List.map_map]
  rw [diffList_map_range (Int.toNat ⌈dstot / h⌉)
    (T ∘ fun k : ℕ => (k : ℚ) * h)]
  simp only [List.map_map]
  rfl

/-- C2: for every resolved motion profile — represented by its clamped
inverse time law `T` with `T 0 = 0` and `T s = dt_tot` for `s ≥ ds_tot` —
and every positive step angle, the Step Delay Sequencer produces exactly
`⌈ds_tot / step_angle⌉` delays; the `k`-th delay is
`T((k+1)·step_angle) - T(k·step_angle) - step_width`; and the sum of the
delays plus `N` pulse widths is exactly `dt_tot`. -/
theorem step_delay_sequencer_correct (T : ℚ → ℚ)
    (dstot stepAngle stepWidth dttot : ℚ)
    (hstep : 0 < stepAngle) (hds : 0 < dstot)
    (hT0 : T 0 = 0) (hTend : ∀ s : ℚ, dstot ≤ s → T s = dttot) :
    (generate_delays T dstot stepAngle stepWidth).length
        = Int.toNat ⌈dstot / stepAngle⌉ ∧
    generate_delays T dstot stepAngle stepWidth
        = (List.range (Int.toNat ⌈dstot / stepAngle⌉)).map
            (fun k => T (((k + 1 : ℕ) : ℚ) * stepAngle)
              - T (((k : ℕ) : ℚ) * stepAngle) - stepWidth) ∧
    (generate_delays T dstot stepAngle stepWidth).sum
        + (Int.toNat ⌈dstot / stepAngle⌉ : ℚ) * stepWidth = dttot := by
  have heq := generate_delays_eq T dstot stepAngle stepWidth hstep
    (le_of_lt hds)
  refine ⟨?_, heq, ?_⟩
  · rw [heq, List.length_map, List.length_range]
  · have hnn : 0 ≤ ⌈dstot / stepAngle⌉ :=
      Int.ceil_nonneg (div_nonneg (le_of_lt hds) (le_of_lt hstep))
    have hcast : ((Int.toNat ⌈dstot / stepAngle⌉ : ℕ) : ℚ)
        = ((⌈dstot / stepAngle⌉ : ℤ) : ℚ) := by
      exact_mod_cast congrArg (fun z : ℤ => (z : ℚ))
        (Int.toNat_of_nonneg hnn)
    have hreach : dstot ≤ ((Int.toNat ⌈dstot / stepAngle⌉ : ℕ) : ℚ)
        * stepAngle := by
      rw [hcast]
      have h1 : dstot / stepAngle ≤ ((⌈dstot / stepAngle⌉ : ℤ) : ℚ) :=
        Int.le_ceil _
      have h2 := mul_le_mul_of_nonneg_right h1 (le_of_lt hstep)
      rwa [div_mul_cancel₀ dstot (ne_of_gt hstep)] at h2
    have hsum := sum_range_map_sub_const
      (fun k : ℕ => T ((k : ℚ) * stepAngle)) stepWidth
      (Int.toNat ⌈dstot / stepAngle⌉)
    simp only at hsum
    rw [heq, hsum, hTend _ hreach]
    push_cast
    simp only [zero_mul, hT0]
    ring

/-- Witness for C2 at the concrete time law `T s = min s 1` (a profile
with `ds_tot = 1`, `dt_tot = 1`), step angle `1/2` and pulse width
`1/100`. -/
theorem step_delay_sequencer_correct_witness :
    (generate_delays (fun s => min s 1) 1 (1/2) (1/100)).length
        = Int.toNat ⌈(1 : ℚ) / (1/2)⌉ ∧
    generate_delays (fun s => min s 1) 1 (1/2) (1/100)
        = (List.range (Int.toNat ⌈(1 : ℚ) / (1/2)⌉)).map
            (fun k => min (((k + 1 : ℕ) : ℚ) * (1/2)) 1
              - min (((k : ℕ) : ℚ) * (1/2)) 1 - 1/100) ∧
    (generate_delays (fun s => min s 1) 1 (1/2) (1/100)).sum
        + (Int.toNat ⌈(1 : ℚ) / (1/2)⌉ : ℚ) * (1/100) = 1 :=
  step_delay_sequencer_correct (fun s => min s 1) 1 (1/2) (1/100) 1
    (by norm_num) (by norm_num) (min_eq_left (by norm_num))
    (fun s hs => min_eq_right hs)

/-- C8: in each of the four supported parameter cases and for both the
trapezoidal and the S-curve variant, every successfully resolved profile
has `dt_dec = dt_acc` and `ds_dec = ds_acc`, exactly. -/
theorem decel_phase_mirrors_accel_phase (k : ProfileKind) :
    (∀ (vm am dtacc dstot : ℚ) (p : Profile),
      calc_total_travel_time k vm am dtacc dstot = .ok p →
        p.dt_dec = p.dt_acc ∧ p.ds_dec = p.ds_acc) ∧
    (∀ (vm am dtacc dttot : ℚ) (p : Profile),
      calc_total_travel_distance k vm am dtacc dttot = .ok p →
        p.dt_dec = p.dt_acc ∧ p.ds_dec = p.ds_acc) ∧
    (∀ (dtacc dttot dstot : ℚ),
      (calc_required_acceleration k dtacc dttot dstot).dt_dec
          = (calc_required_acceleration k dtacc dttot dstot).dt_acc ∧
      (calc_required_acceleration k dtacc dttot dstot).ds_dec
          = (calc_required_acceleration k dtacc dttot dstot).ds_acc) ∧
    (∀ (dstot dttot : ℚ) (dtacc? : Option ℚ) (p : Profile),
      calc_minimum_acceleration k dstot dttot dtacc? = .ok p →
        p.dt_dec = p.dt_acc ∧ p.ds_dec = p.ds_acc) := by
  refine ⟨?_, ?_, ?_, ?_⟩
  · intro vm am dtacc dstot p h
    simp only [calc_total_travel_time] at h
    split_ifs at h
    all_goals
      first
      | exact Except.noConfusion h
      | (injection h with h2; subst h2; exact ⟨rfl, rfl⟩)
  · intro vm am dtacc dttot p h
    simp only [calc_total_travel_distance] at h
    split_ifs at h
    all_goals
      first
      | exact Except.noConfusion h
      | (injection h with h2; subst h2; exact ⟨rfl, rfl⟩)
  · intro dtacc dttot dstot
    exact ⟨rfl, rfl⟩
  · intro dstot dttot dtacc? p h
    rcases dtacc? with _ | d
    · exact absurd h (by simp [calc_minimum_acceleration])
    · simp only [calc_minimum_acceleration] at h
      injection h with h2
      subst h2
      exact ⟨rfl, rfl⟩

/-- Witness for C8: one successful concrete resolution per fallible case
(trapezoidal variant): use case 1 with `v_m = 2`, `a_m = 2`, `ds_tot =
10`; use case 2 with `dt_tot = 10`; use case 4 with `dt_acc = 2`
supplied. -/
theorem decel_phase_mirrors_accel_phase_witness :
    (∃ p, calc_total_travel_time .trapezoidal 2 2 1 10 = .ok p ∧
      p.dt_dec = p.dt_acc ∧ p.ds_dec = p.ds_acc) ∧
    (∃ p, calc_total_travel_distance .trapezoidal 2 2 1 10 = .ok p ∧
      p.dt_dec = p.dt_acc ∧ p.ds_dec = p.ds_acc) ∧
    (∃ p, calc_minimum_acceleration .trapezoidal 10 4 (some 2) = .ok p ∧
      p.dt_dec = p.dt_acc ∧ p.ds_dec = p.ds_acc) := by
  have h1 : calc_total_travel_time .trapezoidal 2 2 1 10 =
      .ok ⟨2, 2, 10, 6, 1, 1, 1, 1, 4, 8⟩ := by
    norm_num [calc_total_travel_time, calc_accel_distance]
  have h2 : calc_total_travel_distance .trapezoidal 2 2 1 10 =
      .ok ⟨2, 2, 18, 10, 1, 1, 1, 1, 8, 16⟩ := by
    norm_num [calc_total_travel_distance, calc_accel_distance]
  have h4 : calc_minimum_acceleration .trapezoidal 10 4 (some 2) =
      .ok ⟨5, 5/2, 10, 4, 2, 5, 2, 5, 0, 0⟩ := by
    norm_num [calc_minimum_acceleration, calc_accel_distance]
  exact ⟨⟨_, h1, (decel_phase_mirrors_accel_phase .trapezoidal).1 _ _ _ _ _ h1⟩,
    ⟨_, h2, (decel_phase_mirrors_accel_phase .trapezoidal).2.1 _ _ _ _ _ h2⟩,
    ⟨_, h4, (decel_phase_mirrors_accel_phase .trapezoidal).2.2.2 _ _ _ _ h4⟩⟩

/-- C9 (code evaluated at the failing input): constructing a profile with
only `ds_tot` and `dt_tot` specified (use case 4) raises `TypeError`
instead of resolving the triangular profile, for both variants, because
`__init__` never assigns `_dt_acc` on this path. -/
theorem case4_raises_type_error :
    motion_profile_init .trapezoidal none none (some 1) (some 90) none
        = .error .typeError ∧
    motion_profile_init .sCurved none none (some 1) (some 90) none
        = .error .typeError := by
  have htn : truthy (none : Option ℚ) = false := rfl
  have ht1 : truthy (some (1 : ℚ)) = true := by norm_num [truthy]
  have ht90 : truthy (some (90 : ℚ)) = true := by norm_num [truthy]
  constructor <;>
  · unfold motion_profile_init
    simp only [htn, ht1, ht90, Bool.false_eq_true, false_and, if_false,
      and_self, if_true]
    unfold calc_minimum_acceleration
    rfl

/-- C3 counterexample: a `DynamicDelayGenerator` that has reached the
`done` state is driven back out of it by `trigger_decel` (so the state
does leave `done` and `trigger_decel` is not a no-op there), and the
`next_delay` call that follows produces a further delay. -/
theorem dyn_gen_done_not_absorbing :
    (trigger_decel dyn_gen_done).state ≠ GenState.done ∧
    (next_delay (trigger_decel dyn_gen_done)).1 = some 1 := by
  constructor
  · exact fun hcontra => nomatch hcontra
  · simp only [next_delay, trigger_decel, dyn_gen_done, emit_delay,
      spec_ramp_up_fn, spec_ramp_down_fn, Option.getD_some]
    norm_num

/-- C3 amended: whenever the state is `done`, `next_delay` signals
exhaustion (raises `StopIteration`), produces no delay and leaves the
generator unchanged — so a sequence of `next_delay` calls alone never
yields a further delay once the generator is done. -/
theorem dyn_gen_next_delay_noop_when_done :
    ∀ g : DynGen, g.state = GenState.done → next_delay g = (none, g) := by
  intro g hdone
  unfold next_delay
  rw [hdone]

/-- Witness for the amended C3 at the concrete finished generator. -/
theorem dyn_gen_next_delay_noop_when_done_witness :
    next_delay dyn_gen_done = (none, dyn_gen_done) :=
  dyn_gen_next_delay_noop_when_done dyn_gen_done rfl

/-- C4: `update_register_bits` first reads the register; if the read
fails the failure propagates and no write datagram is issued at all; if
the read returns `current`, exactly one write — of
`(current & ~mask) | (value & mask)` to the same register — is
issued. -/
theorem update_register_bits_read_modify_write :
    ∀ (readReg : ℕ → Except UARTError ℕ) (slave register mask value : ℕ),
      (∀ e : UARTError, readReg register = .error e →
        update_register_bits readReg slave register mask value
          = (.error e, [])) ∧
      (∀ current : ℕ, readReg register = .ok current →
        update_register_bits readReg slave register mask value
          = (.ok (), [write_datagram slave register
              (Nat.lor (Nat.ldiff current mask) (Nat.land value mask))])) := by
  intro readReg slave register mask value
  constructor
  · intro e h
    unfold update_register_bits
    rw [h]
  · intro current h
    unfold update_register_bits
    rw [h]

/-- Witness for C4: a failing read issues no write; a read returning 171
issues the single masked write. -/
theorem update_register_bits_read_modify_write_witness :
    update_register_bits (fun _ => .error .crcFailed) 0 108 15 3
        = (.error .crcFailed, []) ∧
    update_register_bits (fun _ => .ok 171) 0 108 15 3
        = (.ok (), [write_datagram 0 108
            (Nat.lor (Nat.ldiff 171 15) (Nat.land 3 15))]) :=
  ⟨(update_register_bits_read_modify_write
      (fun _ => .error .crcFailed) 0 108 15 3).1 .crcFailed rfl,
   (update_register_bits_read_modify_write
      (fun _ => .ok 171) 0 108 15 3).2 171 rfl⟩

/-- Definitional evaluation of `read_register` on a full 12-byte
response. -/
lemma read_register_full (register e0 e1 e2 e3 b0 b1 b2 b3 b4 b5 b6 b7 : ℕ) :
    read_register register [e0, e1, e2, e3, b0, b1, b2, b3, b4, b5, b6, b7]
      = (if b0 ≠ 5 then .error (.invalidSync b0)
         else if b1 ≠ 255 then .error (.invalidMaster b1)
         else if b2 ≠ Nat.land register 127 then
           .error (.unexpectedRegister b2)
         else if calculate_crc [b0, b1, b2, b3, b4, b5, b6] ≠ b7 then
           .error .crcFailed
         else
           .ok (Nat.lor (Nat.lor (Nat.lor (b3 <<< 24) (b4 <<< 16))
             (b5 <<< 8)) b6)) := rfl

/-- C5: `read_register` returns a value exactly when the response is a
complete 12-byte frame whose reply part (after the 4-byte request echo)
has sync byte `0x05`, master address `0xFF`, the register byte
`register & 0x7F`, and a checksum matching the one computed over the
preceding 7 reply bytes; a short response raises, and on success the
value is the 4 data bytes assembled big-endian. -/
theorem read_register_validates_frame :
    (∀ (register : ℕ) (response : List ℕ), response.length < 12 →
      read_register register response = .error .incompleteResponse) ∧
    (∀ register e0 e1 e2 e3 b0 b1 b2 b3 b4 b5 b6 b7 : ℕ,
      ((∃ v, read_register register
          [e0, e1, e2, e3, b0, b1, b2, b3, b4, b5, b6, b7] = .ok v) ↔
        (b0 = 5 ∧ b1 = 255 ∧ b2 = Nat.land register 127 ∧
          calculate_crc [b0, b1, b2, b3, b4, b5, b6] = b7)) ∧
      (∀ v, read_register register
          [e0, e1, e2, e3, b0, b1, b2, b3, b4, b5, b6, b7] = .ok v →
        v = Nat.lor (Nat.lor (Nat.lor (b3 <<< 24) (b4 <<< 16)) (b5 <<< 8))
          b6)) := by
  constructor
  · intro register response h
    unfold read_register
    rw [if_pos h]
  · intro register e0 e1 e2 e3 b0 b1 b2 b3 b4 b5 b6 b7
    rw [read_register_full]
    rcases eq_or_ne b0 5 with h0 | h0
    · rcases eq_or_ne b1 255 with h1 | h1
      · rcases eq_or_ne b2 (Nat.land register 127) with h2 | h2
        · subst h0
          subst h1
          subst h2
          rcases eq_or_ne (calculate_crc [5, 255, Nat.land register 127,
            b3, b4, b5, b6]) b7 with h3 | h3
          · constructor
            · simp [h3]
            · intro v hv
              simp [h3] at hv
              exact hv.symm
          · simp [h3]
        · simp [h0, h1, h2]
      · simp [h0, h1]
    · simp [h0]

/-- Witness for C5: a 3-byte response is rejected as incomplete, and a
well-formed frame (data bytes zero, checksum chosen to match) is
accepted. -/
theorem read_register_validates_frame_witness :
    read_register 6 [5, 0, 6] = .error .incompleteResponse ∧
    (∃ v, read_register 6
      [5, 0, 6, 72, 5, 255, 6, 0, 0, 0, 0,
        calculate_crc [5, 255, 6, 0, 0, 0, 0]] = .ok v) :=
  ⟨read_register_validates_frame.1 6 [5, 0, 6] (by norm_num),
   ((read_register_validates_frame.2 6 5 0 6 72 5 255 6 0 0 0 0
      (calculate_crc [5, 255, 6, 0, 0, 0, 0])).1).mpr
    ⟨rfl, rfl, by decide, rfl⟩⟩

/-- C6 (code evaluated at the failing input): `start_rotation` with a
rotation small enough that the computed delay list is empty (0.4° at 200
full steps per revolution, full-step mode) leaves the motor busy with an
empty pending queue, and no number of subsequent `do_single_step` calls
ever changes that state — the busy flag stays set with no corresponding
pending sequence. -/
theorem start_rotation_empty_delays_busy_stuck :
    stuck_stepper.busy = true ∧
    stuck_stepper.delays = [] ∧
    ∀ now : ℚ, do_single_step now stuck_stepper = stuck_stepper := by
  have harith : (2/5 : ℚ) * (((200 : ℕ) : ℚ) * ((1 : ℕ) : ℚ) / 360)
      = 2/9 := by
    push_cast
    norm_num
  have hfloor : ⌊(2/9 : ℚ)⌋ = 0 := by
    rw [Int.floor_eq_zero_iff]
    constructor <;> norm_num
  have hdel : get_delays 200 1 (1/100000) (2/5) 90 none = [] := by
    unfold get_delays
    simp only [harith, hfloor]
    rfl
  have hs : stuck_stepper = ⟨true, 0, [], true, 0, 0⟩ := by
    unfold stuck_stepper start_rotation idle_stepper
    rw [hdel]
    rfl
  rw [hs]
  refine ⟨rfl, rfl, ?_⟩
  intro now
  unfold do_single_step
  simp

/-- C7: a `start_rotation` or `rotate` call on a busy motor only logs a
warning: the pending delay queue, the scheduled next-step time, the busy
flag and the direction line are all exactly unchanged. -/
theorem busy_rejection_leaves_state_unchanged :
    ∀ (fsr mf : ℕ) (sw now degrees speed : ℚ)
      (profile : Option ProfileData) (dir : Bool) (s : StepperState),
      s.busy = true →
      start_rotation fsr mf sw now degrees speed profile dir s
          = { s with warnings := s.warnings + 1 } ∧
      rotate fsr mf sw degrees speed profile dir s
          = { s with warnings := s.warnings + 1 } := by
  intro fsr mf sw now degrees speed profile dir s h
  constructor
  · unfold start_rotation
    rw [if_pos h]
  · unfold rotate
    rw [if_pos h]

/-- Witness for C7 at a concrete busy motor state. -/
theorem busy_rejection_leaves_state_unchanged_witness :
    start_rotation 200 1 0 0 90 90 none true busy_stepper
        = { busy_stepper with warnings := busy_stepper.warnings + 1 } ∧
    rotate 200 1 0 90 90 none true busy_stepper
        = { busy_stepper with warnings := busy_stepper.warnings + 1 } :=
  busy_rejection_leaves_state_unchanged 200 1 0 0 90 90 none true
    busy_stepper rfl

/-- C10: whenever `do_single_step` fires a pulse with a non-empty delay
queue, it pops the head delay `d`, and the next scheduled step time is
`now + 2·d` — twice the stored delay, not `d` itself. -/
theorem do_single_step_schedules_twice_delay :
    ∀ (now : ℚ) (s : StepperState) (d : ℚ) (rest : List ℚ),
      s.busy = true → s.nextStepTime ≤ now → s.delays = d :: rest →
      (do_single_step now s).pulses = s.pulses + 1 ∧
      (do_single_step now s).delays = rest ∧
      (do_single_step now s).nextStepTime = now + 2 * d := by
  intro now s d rest hb ht hd
  have h1 : ¬ (s.busy = false) := by simp [hb]
  have h2 : s.nextStepTime ≤ now ∧ s.delays ≠ [] := ⟨ht, by simp [hd]⟩
  unfold do_single_step
  rw [if_neg h1, if_pos h2, hd]
  by_cases hrest : rest = [] <;> simp [hrest]

/-- Witness for C10: from `delays = [3, 4]` at `now = 1`, one step pops
the 3 and schedules the next pulse at `1 + 2·3`. -/
theorem do_single_step_schedules_twice_delay_witness :
    (do_single_step 1 ⟨true, 0, [3, 4], true, 0, 0⟩).pulses = 0 + 1 ∧
    (do_single_step 1 ⟨true, 0, [3, 4], true, 0, 0⟩).delays = [4] ∧
    (do_single_step 1 ⟨true, 0, [3, 4], true, 0, 0⟩).nextStepTime
        = 1 + 2 * 3 :=
  do_single_step_schedules_twice_delay 1 ⟨true, 0, [3, 4], true, 0, 0⟩ 3 [4]
    rfl (by norm_num) rfl

end PyBerryPLC
